import Mathlib

/-!
# Verification of `generate_icon.py` (ClaudeHistorySearch)

A shallow embedding of the icon-rendering routine `create_app_icon` from
`src/generate_icon.py`, together with theorems settling the frozen claims
about it.

Modelling conventions:

* A PIL `RGBA` image is a structure holding its dimensions and a pixel
  lookup function `px : ℕ → ℕ → RGBA`.  PIL drawing primitives clip to the
  canvas; our drawing operations paint the same geometric region without
  clipping, and every theorem below only inspects pixels inside the canvas,
  where the two agree.
* Coordinates computed by the script with Python floats from exact decimal
  constants (`size * 0.42`, …) are modelled as exact rationals.
* The script's only non-decimal float quantities are
  `math.cos(math.radians(45))` and `math.sin(math.radians(45))` (source
  lines 60-62).  Their exact values are irrational, so the embedding takes
  them as parameters `c45 s45 : ℚ`; theorems that depend on them assume
  only that each lies in the interval `[0.7071067, 0.7071068]`, which
  contains the double-precision values the script actually computes
  (both are within `10^-9` of `√2/2 = 0.70710678118…`).
* `draw.ellipse` with bounding box `[x0, y0, x1, y1]` is modelled as
  painting the pixels whose integer coordinates satisfy the inscribed
  ellipse inequality; `draw.line` with `width = w` as painting the breadth-`w`
  rectangle around the segment (flat ends — which is why the script adds an
  explicit cap circle at the handle's far end).
* `Image.alpha_composite` is modelled pixelwise by the exact integer
  arithmetic of Pillow's `AlphaComposite.c` (7 extra precision bits and the
  `SHIFTFORDIV255` rounding trick).
-/

/-- A pixel color: red, green, blue and alpha channels.  PIL stores each as
an unsigned byte; every channel value arising in this development lies in
`[0, 255]`. -/
structure RGBA where
  r : ℕ
  g : ℕ
  b : ℕ
  a : ℕ
deriving DecidableEq

/-- An in-memory RGBA raster image: its dimensions and its pixel lookup
function.  `px x y` is the color of the pixel in column `x`, row `y`. -/
structure Img where
  width : ℕ
  height : ℕ
  px : ℕ → ℕ → RGBA

/-- Python `int(...)` applied to an exact rational: truncation toward zero. -/
def truncQ (q : ℚ) : ℤ := if 0 ≤ q then ⌊q⌋ else ⌈q⌉

/-- Python `int(...)` of a (nonnegative) quantity, as a channel value. -/
def pyIntNat (q : ℚ) : ℕ := (truncQ q).toNat

/-- `color_top = (217, 119, 87)`, the Claude coral gradient top (line 13). -/
def color_top : ℤ × ℤ × ℤ := (217, 119, 87)

/-- `color_bottom = (196, 88, 54)`, the darker coral gradient bottom (line 14). -/
def color_bottom : ℤ × ℤ × ℤ := (196, 88, 54)

/-- The fill color of gradient row `y` (lines 18-22): `ratio = y / size`,
each channel `int(top + (bottom - top) * ratio)`, alpha fixed at 255. -/
def gradColor (size y : ℕ) : RGBA :=
  ⟨pyIntNat ((color_top.1 : ℚ) + ((color_bottom.1 : ℚ) - (color_top.1 : ℚ)) * ((y : ℚ) / (size : ℚ))),
   pyIntNat ((color_top.2.1 : ℚ) + ((color_bottom.2.1 : ℚ) - (color_top.2.1 : ℚ)) * ((y : ℚ) / (size : ℚ))),
   pyIntNat ((color_top.2.2 : ℚ) + ((color_bottom.2.2 : ℚ) - (color_top.2.2 : ℚ)) * ((y : ℚ) / (size : ℚ))),
   255⟩

/-- `draw.line([(0, y0), (size, y0)], fill = c)` (line 22): a horizontal
one-pixel-high line across the full canvas width, i.e. it paints every pixel
of row `y0`. -/
def drawHLine (y0 : ℕ) (c : RGBA) (img : Img) : Img :=
  ⟨img.width, img.height, fun x y => if y = y0 then c else img.px x y⟩

/-- `Image.new('RGBA', (w, h), (0, 0, 0, 0))`: a fully transparent canvas. -/
def blankImg (w h : ℕ) : Img :=
  ⟨w, h, fun _ _ => ⟨0, 0, 0, 0⟩⟩

/-- The gradient background stage (lines 9 and 17-22): starting from the
transparent `size × size` canvas, fill each row `y ∈ range size` in turn
with its interpolated color. -/
def gradientLoop (size : ℕ) : Img :=
  (List.range size).foldl (fun img y => drawHLine y (gradColor size y) img) (blankImg size size)

/-- Pixel membership in the filled ellipse inscribed in the bounding box
`[x0, y0, x1, y1]` (the idealized rasterization of PIL `draw.ellipse`):
pixel `(x, y)` is painted iff its coordinates satisfy the ellipse
inequality for center `((x0+x1)/2, (y0+y1)/2)` and semi-axes
`(x1-x0)/2`, `(y1-y0)/2`. -/
def inEllipse (x0 y0 x1 y1 : ℚ) (x y : ℕ) : Bool :=
  decide ((((y1 - y0) / 2) ^ 2) * ((x : ℚ) - (x0 + x1) / 2) ^ 2
    + (((x1 - x0) / 2) ^ 2) * ((y : ℚ) - (y0 + y1) / 2) ^ 2
    ≤ (((x1 - x0) / 2) ^ 2) * (((y1 - y0) / 2) ^ 2))

/-- `draw.ellipse([x0, y0, x1, y1], fill = c)`: paint the inscribed ellipse. -/
def drawEllipse (x0 y0 x1 y1 : ℚ) (c : RGBA) (img : Img) : Img :=
  ⟨img.width, img.height, fun x y => if inEllipse x0 y0 x1 y1 x y then c else img.px x y⟩

/-- Pixel membership in a straight thick segment from `p` to `q` of breadth
`w` (the idealized rasterization of PIL `draw.line(..., width = w)`, which
fills the rectangle of breadth `w` around the segment with flat ends — the
script adds the round cap separately, lines 74-80).  Membership: the pixel's
projection onto the direction lies between the endpoints, and its distance
from the segment's line is at most `w / 2`. -/
def inThickLine (p q : ℚ × ℚ) (w : ℚ) (x y : ℕ) : Bool :=
  decide (0 ≤ ((x : ℚ) - p.1) * (q.1 - p.1) + ((y : ℚ) - p.2) * (q.2 - p.2)
    ∧ ((x : ℚ) - p.1) * (q.1 - p.1) + ((y : ℚ) - p.2) * (q.2 - p.2)
        ≤ (q.1 - p.1) ^ 2 + (q.2 - p.2) ^ 2
    ∧ (((x : ℚ) - p.1) * (q.2 - p.2) - ((y : ℚ) - p.2) * (q.1 - p.1)) ^ 2
        ≤ (w / 2) ^ 2 * ((q.1 - p.1) ^ 2 + (q.2 - p.2) ^ 2))

/-- `draw.line([p, q], fill = c, width = w)` (lines 67-71). -/
def drawLineSeg (p q : ℚ × ℚ) (w : ℚ) (c : RGBA) (img : Img) : Img :=
  ⟨img.width, img.height, fun x y => if inThickLine p q w x y then c else img.px x y⟩

/-- Pillow's `SHIFTFORDIV255(a) = ((a >> 8) + a) >> 8`, a rounding division
by 255 for the ranges arising in alpha compositing. -/
def shiftForDiv255 (n : ℕ) : ℕ := ((n >>> 8) + n) >>> 8

/-- One pixel of `Image.alpha_composite(dst, src)`: the exact integer
arithmetic of Pillow's `AlphaComposite.c` (source-over blending with
`PRECISION_BITS = 7`).  A fully transparent source pixel leaves the
destination pixel unchanged. -/
def compositePixel (dst src : RGBA) : RGBA :=
  if src.a = 0 then dst
  else
    let blend := dst.a * (255 - src.a)
    let outa255 := src.a * 255 + blend
    let coef1 := src.a * 255 * 255 * 128 / outa255
    let coef2 := 255 * 128 - coef1
    ⟨shiftForDiv255 (src.r * coef1 + dst.r * coef2 + 128 * 128) >>> 7,
     shiftForDiv255 (src.g * coef1 + dst.g * coef2 + 128 * 128) >>> 7,
     shiftForDiv255 (src.b * coef1 + dst.b * coef2 + 128 * 128) >>> 7,
     shiftForDiv255 (outa255 + 128)⟩

/-- `Image.alpha_composite(dst, src)` (line 95), pixelwise.  PIL requires the
two images to have equal sizes (it raises otherwise); in this program both
are `size × size` canvases, so we model the operation totally. -/
def alpha_composite (dst src : Img) : Img :=
  ⟨dst.width, dst.height, fun x y => compositePixel (dst.px x y) (src.px x y)⟩

/-- `center_x = size * 0.42` (line 25). -/
def center_x (size : ℕ) : ℚ := (size : ℚ) * 0.42

/-- `center_y = size * 0.42` (line 26). -/
def center_y (size : ℕ) : ℚ := (size : ℚ) * 0.42

/-- `glass_radius = size * 0.24` (line 27). -/
def glass_radius (size : ℕ) : ℚ := (size : ℚ) * 0.24

/-- `ring_width = size * 0.055` (line 28). -/
def ring_width (size : ℕ) : ℚ := (size : ℚ) * 0.055

/-- `handle_width = size * 0.07` (line 29). -/
def handle_width (size : ℕ) : ℚ := (size : ℚ) * 0.07

/-- `handle_length = size * 0.28` (line 30). -/
def handle_length (size : ℕ) : ℚ := (size : ℚ) * 0.28

/-- `white = (255, 255, 255, 255)` (line 33). -/
def white : RGBA := ⟨255, 255, 255, 255⟩

/-- `inner_color` (lines 45-50): 95% top color plus 5% bottom color,
channel-wise `int(...)`, alpha 255. -/
def inner_color : RGBA :=
  ⟨pyIntNat ((color_top.1 : ℚ) * 0.95 + (color_bottom.1 : ℚ) * 0.05),
   pyIntNat ((color_top.2.1 : ℚ) * 0.95 + (color_bottom.2.1 : ℚ) * 0.05),
   pyIntNat ((color_top.2.2 : ℚ) * 0.95 + (color_bottom.2.2 : ℚ) * 0.05),
   255⟩

/-- The ring stage (lines 36-57): over the gradient, the outer disc
(bounding box `center ± (glass_radius + ring_width/2)`) filled white, then
the inner disc (bounding box `center ± (glass_radius - ring_width/2)`)
filled with `inner_color`. -/
def ringStage (size : ℕ) : Img :=
  drawEllipse
    (center_x size - glass_radius size + ring_width size / 2)
    (center_y size - glass_radius size + ring_width size / 2)
    (center_x size + glass_radius size - ring_width size / 2)
    (center_y size + glass_radius size - ring_width size / 2)
    inner_color
    (drawEllipse
      (center_x size - glass_radius size - ring_width size / 2)
      (center_y size - glass_radius size - ring_width size / 2)
      (center_x size + glass_radius size + ring_width size / 2)
      (center_y size + glass_radius size + ring_width size / 2)
      white
      (gradientLoop size))

/-- `(handle_start_x, handle_start_y)` (lines 61-62): the handle segment's
near end, `center + glass_radius * (cos 45°, sin 45°)`, with the direction
cosines taken as parameters `c45`, `s45`. -/
def handle_start (c45 s45 : ℚ) (size : ℕ) : ℚ × ℚ :=
  (center_x size + glass_radius size * c45, center_y size + glass_radius size * s45)

/-- `(handle_end_x, handle_end_y)` (lines 63-64): the far end,
`handle_start + handle_length * (cos 45°, sin 45°)`. -/
def handle_end (c45 s45 : ℚ) (size : ℕ) : ℚ × ℚ :=
  ((handle_start c45 s45 size).1 + handle_length size * c45,
   (handle_start c45 s45 size).2 + handle_length size * s45)

/-- The main canvas after all opaque drawing (lines 17-80): gradient, ring,
thick handle segment of width `int(handle_width)`, and the white cap disc of
radius `handle_width / 2` centered at the handle's far end. -/
def mainCanvas (c45 s45 : ℚ) (size : ℕ) : Img :=
  drawEllipse
    ((handle_end c45 s45 size).1 - handle_width size / 2)
    ((handle_end c45 s45 size).2 - handle_width size / 2)
    ((handle_end c45 s45 size).1 + handle_width size / 2)
    ((handle_end c45 s45 size).2 + handle_width size / 2)
    white
    (drawLineSeg (handle_start c45 s45 size) (handle_end c45 s45 size)
      ((truncQ (handle_width size) : ℤ) : ℚ) white (ringStage size))

/-- The highlight layer (lines 83-94): a fresh fully transparent canvas with
one ellipse of radius `shine_radius = glass_radius * 0.15` centered at
`center - (shine_offset, shine_offset)` with `shine_offset =
glass_radius * 0.25`, filled `(255, 255, 255, 60)`. -/
def shineLayer (size : ℕ) : Img :=
  drawEllipse
    (center_x size - glass_radius size * 0.25 - glass_radius size * 0.15)
    (center_y size - glass_radius size * 0.25 - glass_radius size * 0.15)
    (center_x size - glass_radius size * 0.25 + glass_radius size * 0.15)
    (center_y size - glass_radius size * 0.25 + glass_radius size * 0.15)
    ⟨255, 255, 255, 60⟩
    (blankImg size size)

/-- `create_app_icon(size)` (lines 7-97): the main canvas with the highlight
layer alpha-composited on top.  `c45`, `s45` are the values of
`math.cos(math.radians(45))` and `math.sin(math.radians(45))`. -/
def create_app_icon (c45 s45 : ℚ) (size : ℕ) : Img :=
  alpha_composite (mainCanvas c45 s45 size) (shineLayer size)

/-- Constraint tying the direction parameters to the values the script
computes: both `math.cos(math.radians(45))` and `math.sin(math.radians(45))`
lie in `[0.7071067, 0.7071068]`. -/
def dirOK (c45 s45 : ℚ) : Prop :=
  0.7071067 ≤ c45 ∧ c45 ≤ 0.7071068 ∧ 0.7071067 ≤ s45 ∧ s45 ≤ 0.7071068

/-- Spec-side membership of pixel `(x, y)` in the filled disc of center
`(cx, cy)` and radius `r` — used to compare the code's bounding-box ellipses
against the spec's center-and-radius descriptions. -/
def inDisc (cx cy r : ℚ) (x y : ℕ) : Bool :=
  decide (((x : ℚ) - cx) ^ 2 + ((y : ℚ) - cy) ^ 2 ≤ r ^ 2)

/-- The pixel containing the computed glass center: Python integer
coordinates `(int(center_x), int(center_y))`. -/
def glassCenterPx (size : ℕ) : ℕ := pyIntNat (center_x size)

/-- The set of pixels painted by the cap disc at the handle's far end
(lines 74-80), as tested by the pipeline. -/
def capRegion (c45 s45 : ℚ) (size x y : ℕ) : Bool :=
  inEllipse ((handle_end c45 s45 size).1 - handle_width size / 2)
    ((handle_end c45 s45 size).2 - handle_width size / 2)
    ((handle_end c45 s45 size).1 + handle_width size / 2)
    ((handle_end c45 s45 size).2 + handle_width size / 2) x y

/-- The set of pixels painted by the thick handle segment (lines 67-71). -/
def handleRegion (c45 s45 : ℚ) (size x y : ℕ) : Bool :=
  inThickLine (handle_start c45 s45 size) (handle_end c45 s45 size)
    ((truncQ (handle_width size) : ℤ) : ℚ) x y

/-- The set of pixels painted by the inner disc (lines 51-57). -/
def innerRegion (size x y : ℕ) : Bool :=
  inEllipse (center_x size - glass_radius size + ring_width size / 2)
    (center_y size - glass_radius size + ring_width size / 2)
    (center_x size + glass_radius size - ring_width size / 2)
    (center_y size + glass_radius size - ring_width size / 2) x y

/-- The set of pixels painted by the outer disc (lines 36-42). -/
def outerRegion (size x y : ℕ) : Bool :=
  inEllipse (center_x size - glass_radius size - ring_width size / 2)
    (center_y size - glass_radius size - ring_width size / 2)
    (center_x size + glass_radius size + ring_width size / 2)
    (center_y size + glass_radius size + ring_width size / 2) x y

/-- The set of pixels painted by the highlight ellipse (lines 88-94). -/
def shineRegion (size x y : ℕ) : Bool :=
  inEllipse (center_x size - glass_radius size * 0.25 - glass_radius size * 0.15)
    (center_y size - glass_radius size * 0.25 - glass_radius size * 0.15)
    (center_x size - glass_radius size * 0.25 + glass_radius size * 0.15)
    (center_y size - glass_radius size * 0.25 + glass_radius size * 0.15) x y

/-! ## General lemmas about the embedding -/

theorem pyIntNat_eq (q : ℚ) (n : ℕ) (h1 : (n : ℚ) ≤ q) (h2 : q < n + 1) :
    pyIntNat q = n := by
  have h0 : (0 : ℚ) ≤ q := le_trans (by positivity) h1
  have hf : ⌊q⌋ = (n : ℤ) := by
    rw [Int.floor_eq_iff]
    exact ⟨by exact_mod_cast h1, by exact_mod_cast h2⟩
  rw [pyIntNat, truncQ, if_pos h0, hf]
  simp

theorem gradientFold_px (size : ℕ) (base : Img) (n x y : ℕ) :
    ((List.range n).foldl (fun img yy => drawHLine yy (gradColor size yy) img) base).px x y
      = if y < n then gradColor size y else base.px x y := by
  induction n with
  | zero => simp
  | succ n ih =>
    rw [List.range_succ, List.foldl_append, List.foldl_cons, List.foldl_nil]
    show (if y = n then gradColor size n else _) = _
    by_cases hy : y = n
    · subst hy; simp
    · rw [if_neg hy, ih]
      by_cases hlt : y < n
      · rw [if_pos hlt, if_pos (Nat.lt_succ_of_lt hlt)]
      · rw [if_neg hlt, if_neg (by omega)]

theorem gradientLoop_px (size x y : ℕ) (hy : y < size) :
    (gradientLoop size).px x y = gradColor size y := by
  rw [gradientLoop, gradientFold_px, if_pos hy]

theorem gradientFold_width (size : ℕ) (l : List ℕ) (base : Img) :
    (l.foldl (fun img yy => drawHLine yy (gradColor size yy) img) base).width = base.width := by
  induction l generalizing base with
  | nil => rfl
  | cons h t ih => rw [List.foldl_cons]; exact ih _

theorem gradientFold_height (size : ℕ) (l : List ℕ) (base : Img) :
    (l.foldl (fun img yy => drawHLine yy (gradColor size yy) img) base).height = base.height := by
  induction l generalizing base with
  | nil => rfl
  | cons h t ih => rw [List.foldl_cons]; exact ih _

theorem inEllipse_eq_inDisc (cx cy r : ℚ) (hr : 0 < r) (x y : ℕ) :
    inEllipse (cx - r) (cy - r) (cx + r) (cy + r) x y = inDisc cx cy r x y := by
  simp only [inEllipse, inDisc]
  rw [decide_eq_decide]
  have e1 : (cx + r - (cx - r)) / 2 = r := by ring
  have e2 : (cy + r - (cy - r)) / 2 = r := by ring
  have e3 : ((cx - r) + (cx + r)) / 2 = cx := by ring
  have e4 : ((cy - r) + (cy + r)) / 2 = cy := by ring
  rw [e1, e2, e3, e4]
  have hr2 : (0 : ℚ) < r ^ 2 := by positivity
  constructor
  · intro h
    nlinarith [h]
  · intro h
    nlinarith [h]

theorem compositePixel_transparent (d : RGBA) : compositePixel d ⟨0, 0, 0, 0⟩ = d := rfl

theorem compositePixel_alpha (d s : RGBA) (hd : d.a = 255) (hs : s.a ≤ 255) :
    (compositePixel d s).a = 255 := by
  rw [compositePixel]
  by_cases h0 : s.a = 0
  · rw [if_pos h0]; exact hd
  · rw [if_neg h0]
    show shiftForDiv255 (s.a * 255 + d.a * (255 - s.a) + 128) = 255
    have houta : s.a * 255 + d.a * (255 - s.a) + 128 = 65153 := by
      rw [hd]; omega
    rw [houta]
    decide

theorem create_app_icon_px (c45 s45 : ℚ) (size x y : ℕ) (hy : y < size) :
    (create_app_icon c45 s45 size).px x y =
      compositePixel
        (if capRegion c45 s45 size x y then white
         else if handleRegion c45 s45 size x y then white
         else if innerRegion size x y then inner_color
         else if outerRegion size x y then white
         else gradColor size y)
        (if shineRegion size x y then ⟨255, 255, 255, 60⟩ else ⟨0, 0, 0, 0⟩) := by
  show compositePixel ((mainCanvas c45 s45 size).px x y) ((shineLayer size).px x y) = _
  rw [show (mainCanvas c45 s45 size).px x y =
      (if capRegion c45 s45 size x y then white
       else if handleRegion c45 s45 size x y then white
       else if innerRegion size x y then inner_color
       else if outerRegion size x y then white
       else (gradientLoop size).px x y) from rfl]
  rw [gradientLoop_px size x y hy]
  rfl

theorem rat_le_of_sq_le_sq (a b : ℚ) (hb : 0 ≤ b) (h : a ^ 2 ≤ b ^ 2) : a ≤ b := by
  nlinarith [h, hb]

theorem pyIntNat_interp_last (t : ℚ) (b s : ℕ) (hbt : (b : ℚ) ≤ t)
    (hs : t - (b : ℚ) < (s : ℚ)) (hs0 : 0 < s) :
    pyIntNat (t + ((b : ℚ) - t) * (((s : ℚ) - 1) / (s : ℚ))) = b := by
  have hsQ : (0 : ℚ) < (s : ℚ) := by exact_mod_cast hs0
  have key : t + ((b : ℚ) - t) * (((s : ℚ) - 1) / (s : ℚ))
      = (b : ℚ) + (t - (b : ℚ)) / (s : ℚ) := by
    field_simp
    ring
  rw [key]
  apply pyIntNat_eq
  · have h0 : (0 : ℚ) ≤ (t - (b : ℚ)) / (s : ℚ) := div_nonneg (by linarith) hsQ.le
    linarith
  · have h1 : (t - (b : ℚ)) / (s : ℚ) < 1 := (div_lt_one hsQ).mpr hs
    linarith

theorem gradColor_zero (size : ℕ) : gradColor size 0 = ⟨217, 119, 87, 255⟩ := by
  rw [gradColor]
  simp only [color_top, color_bottom, Nat.cast_zero, zero_div, mul_zero, add_zero]
  have h1 : pyIntNat (((217 : ℤ) : ℚ)) = 217 := pyIntNat_eq _ 217 (by norm_num) (by norm_num)
  have h2 : pyIntNat (((119 : ℤ) : ℚ)) = 119 := pyIntNat_eq _ 119 (by norm_num) (by norm_num)
  have h3 : pyIntNat (((87 : ℤ) : ℚ)) = 87 := pyIntNat_eq _ 87 (by norm_num) (by norm_num)
  rw [h1, h2, h3]

theorem gradColor_last (size : ℕ) (h : 34 ≤ size) :
    gradColor size (size - 1) = ⟨196, 88, 54, 255⟩ := by
  rw [gradColor]
  simp only [color_top, color_bottom]
  have hc : ((size - 1 : ℕ) : ℚ) = (size : ℚ) - 1 := by
    push_cast [Nat.cast_sub (by omega : 1 ≤ size)]
    ring
  rw [hc]
  have h1 : pyIntNat ((217 : ℚ) + ((196 : ℚ) - 217) * (((size : ℚ) - 1) / (size : ℚ))) = 196 := by
    have := pyIntNat_interp_last 217 196 size (by norm_num) (by
      push_cast
      have : (34 : ℚ) ≤ (size : ℚ) := by exact_mod_cast h
      linarith) (by omega)
    exact_mod_cast this
  have h2 : pyIntNat ((119 : ℚ) + ((88 : ℚ) - 119) * (((size : ℚ) - 1) / (size : ℚ))) = 88 := by
    have := pyIntNat_interp_last 119 88 size (by norm_num) (by
      push_cast
      have : (34 : ℚ) ≤ (size : ℚ) := by exact_mod_cast h
      linarith) (by omega)
    exact_mod_cast this
  have h3 : pyIntNat ((87 : ℚ) + ((54 : ℚ) - 87) * (((size : ℚ) - 1) / (size : ℚ))) = 54 := by
    have := pyIntNat_interp_last 87 54 size (by norm_num) (by
      push_cast
      have : (34 : ℚ) ≤ (size : ℚ) := by exact_mod_cast h
      linarith) (by omega)
    exact_mod_cast this
  push_cast
  rw [h1, h2, h3]

theorem inner_color_eq : inner_color = ⟨215, 117, 85, 255⟩ := by
  rw [inner_color]
  simp only [color_top, color_bottom]
  have h1 : pyIntNat (((217 : ℤ) : ℚ) * 0.95 + ((196 : ℤ) : ℚ) * 0.05) = 215 :=
    pyIntNat_eq _ 215 (by norm_num) (by norm_num)
  have h2 : pyIntNat (((119 : ℤ) : ℚ) * 0.95 + ((88 : ℤ) : ℚ) * 0.05) = 117 :=
    pyIntNat_eq _ 117 (by norm_num) (by norm_num)
  have h3 : pyIntNat (((87 : ℤ) : ℚ) * 0.95 + ((54 : ℤ) : ℚ) * 0.05) = 85 :=
    pyIntNat_eq _ 85 (by norm_num) (by norm_num)
  rw [h1, h2, h3]

/-! ## Claim theorems -/

/-- **C1.** For every `size ≥ 1` and row `y ∈ [0, size)`, the gradient
background stage paints every pixel of row `y` with the identical color whose
channels are `int(top + (bottom - top) * (y / size))` for `top = (217,119,87)`
and `bottom = (196,88,54)`, with alpha fixed at 255; any two pixels of the
same row are exactly equal. -/
theorem c1_gradient_rows (size x xp y : ℕ) (hy : y < size) (_hx : x < size) (_hxp : xp < size) :
    (gradientLoop size).px x y = gradColor size y
    ∧ ((gradientLoop size).px x y).a = 255
    ∧ (gradientLoop size).px x y = (gradientLoop size).px xp y := by
  refine ⟨gradientLoop_px size x y hy, ?_, ?_⟩
  · rw [gradientLoop_px size x y hy]
    rfl
  · rw [gradientLoop_px size x y hy, gradientLoop_px size xp y hy]

/-- Witness for `c1_gradient_rows` at `size = 3`, `x = 0`, `xp = 2`, `y = 1`. -/
theorem c1_gradient_rows_witness :
    (gradientLoop 3).px 0 1 = gradColor 3 1
    ∧ ((gradientLoop 3).px 0 1).a = 255
    ∧ (gradientLoop 3).px 0 1 = (gradientLoop 3).px 2 1 :=
  c1_gradient_rows 3 0 2 1 (by decide) (by decide) (by decide)

/-- **C4 (amended).** Row 0 of the gradient background equals the top color
`(217,119,87)` exactly for every `size ≥ 1`; row `size - 1` equals the bottom
color `(196,88,54)` exactly for every `size ≥ 34` (for smaller sizes the
interpolation ratio `(size-1)/size` stays far enough below 1 that at least
one truncated channel exceeds the bottom value). -/
theorem c4_boundary_rows (size x : ℕ) (hx : x < size) :
    (gradientLoop size).px x 0 = ⟨217, 119, 87, 255⟩
    ∧ (34 ≤ size → (gradientLoop size).px x (size - 1) = ⟨196, 88, 54, 255⟩) := by
  constructor
  · rw [gradientLoop_px size x 0 (by omega), gradColor_zero]
  · intro h34
    rw [gradientLoop_px size x (size - 1) (by omega), gradColor_last size h34]

/-- Witness for `c4_boundary_rows` at `size = 40`, `x = 5`. -/
theorem c4_boundary_rows_witness :
    (gradientLoop 40).px 5 0 = ⟨217, 119, 87, 255⟩
    ∧ (34 ≤ 40 → (gradientLoop 40).px 5 (40 - 1) = ⟨196, 88, 54, 255⟩) :=
  c4_boundary_rows 40 5 (by decide)

/-- **C4 counterexample.** At `size = 1` the last row `y = size - 1 = 0` of the
gradient background is the top color `(217,119,87)`, not the bottom color
`(196,88,54)` as the claim asserts for every `size ≥ 1`. -/
theorem c4_boundary_rows_cex :
    (gradientLoop 1).px 0 (1 - 1) = ⟨217, 119, 87, 255⟩
    ∧ (gradientLoop 1).px 0 (1 - 1) ≠ ⟨196, 88, 54, 255⟩ := by
  have h : (gradientLoop 1).px 0 (1 - 1) = ⟨217, 119, 87, 255⟩ := by
    show (gradientLoop 1).px 0 0 = _
    rw [gradientLoop_px 1 0 0 (by omega), gradColor_zero]
  refine ⟨h, ?_⟩
  rw [h]
  simp

/-- **C8.** For every size `N`, `create_app_icon` returns an RGBA raster whose
dimensions are exactly `N × N` (so in particular for every positive `N`). -/
theorem c8_dimensions (c45 s45 : ℚ) (size : ℕ) :
    (create_app_icon c45 s45 size).width = size
    ∧ (create_app_icon c45 s45 size).height = size := by
  constructor
  · show (gradientLoop size).width = size
    rw [gradientLoop, gradientFold_width]
    rfl
  · show (gradientLoop size).height = size
    rw [gradientLoop, gradientFold_height]
    rfl

/-- **C9.** Rendering is deterministic: two invocations on identical inputs
(the same size, and the same values of the trigonometric constants, which the
script recomputes identically on every call) produce identical images.  The
embedding of `create_app_icon` is a pure function: the source consults no
randomness, no clock and no mutable global state. -/
theorem c9_deterministic (c45 s45 c45p s45p : ℚ) (n np : ℕ)
    (hc : c45 = c45p) (hs : s45 = s45p) (hn : n = np) :
    create_app_icon c45 s45 n = create_app_icon c45p s45p np := by
  subst hc
  subst hs
  subst hn
  rfl

/-- Witness for `c9_deterministic` at `size = 64`. -/
theorem c9_deterministic_witness :
    create_app_icon 0.70710678 0.70710678 64 = create_app_icon 0.70710678 0.70710678 64 :=
  c9_deterministic 0.70710678 0.70710678 0.70710678 0.70710678 64 64 rfl rfl rfl

/-- **C10.** The final alpha-compositing step changes only pixels inside the
highlight ellipse: every pixel outside that region keeps, in all four RGBA
channels, exactly its value from the main canvas immediately before the
composite. -/
theorem c10_composite_frame (c45 s45 : ℚ) (size x y : ℕ)
    (h : shineRegion size x y = false) :
    (create_app_icon c45 s45 size).px x y = (mainCanvas c45 s45 size).px x y := by
  show compositePixel ((mainCanvas c45 s45 size).px x y) ((shineLayer size).px x y) = _
  have hs : (shineLayer size).px x y = ⟨0, 0, 0, 0⟩ := by
    show (if shineRegion size x y then (⟨255, 255, 255, 60⟩ : RGBA) else ⟨0, 0, 0, 0⟩) = _
    rw [h]
    simp
  rw [hs, compositePixel_transparent]

/-- Witness for `c10_composite_frame` at `size = 16`, pixel `(0, 0)`. -/
theorem c10_composite_frame_witness :
    shineRegion 16 0 0 = false
    ∧ (create_app_icon 0.70710678 0.70710678 16).px 0 0
        = (mainCanvas 0.70710678 0.70710678 16).px 0 0 := by
  have h : shineRegion 16 0 0 = false := by
    simp only [shineRegion, inEllipse, center_x, center_y, glass_radius,
      decide_eq_false_iff_not]
    push_cast
    norm_num
  exact ⟨h, c10_composite_frame 0.70710678 0.70710678 16 0 0 h⟩

/-- **C3 (amended).** Every pixel of the returned image is fully opaque: the
alpha channel is exactly 255 everywhere on the canvas, including inside the
highlight ellipse — alpha-over compositing a translucent layer onto an opaque
canvas leaves alpha at 255 (the highlight changes only the color channels).
Non-highlighted pixels are of course also exactly alpha 255. -/
theorem c3_alpha_opaque (c45 s45 : ℚ) (size x y : ℕ) (_hx : x < size) (hy : y < size) :
    ((create_app_icon c45 s45 size).px x y).a = 255 := by
  rw [create_app_icon_px c45 s45 size x y hy]
  apply compositePixel_alpha
  · split_ifs <;> rfl
  · split_ifs <;> norm_num

/-- Witness for `c3_alpha_opaque` at `size = 2`, pixel `(1, 1)`. -/
theorem c3_alpha_opaque_witness :
    ((create_app_icon 0.70710678 0.70710678 2).px 1 1).a = 255 :=
  c3_alpha_opaque 0.70710678 0.70710678 2 1 1 (by decide) (by decide)

/-- **C3 counterexample.** At `size = 1024` the pixel `(368, 368)` lies inside
the highlight ellipse, hence is blended with the translucent overlay, yet its
alpha channel is exactly 255 — not strictly less than 255 as claimed. -/
theorem c3_alpha_cex :
    shineRegion 1024 368 368 = true
    ∧ ((create_app_icon 0.70710678 0.70710678 1024).px 368 368).a = 255 := by
  constructor
  · simp only [shineRegion, inEllipse, center_x, center_y, glass_radius,
      decide_eq_true_eq]
    push_cast
    norm_num
  · rw [create_app_icon_px 0.70710678 0.70710678 1024 368 368 (by omega)]
    apply compositePixel_alpha
    · split_ifs <;> rfl
    · split_ifs <;> norm_num

/-- **C7.** The highlight is drawn on a separate fully transparent layer as a
single disc of radius `0.15 * glass_radius` filled with white at alpha 60,
centered `0.25 * glass_radius` up and left of the glass center, and the final
image is exactly that layer alpha-over-composited onto the main canvas (the
layer contributes `(255,255,255,60)` on the disc and is fully transparent —
hence neutral under compositing — everywhere else). -/
theorem c7_highlight_composite (c45 s45 : ℚ) (size x y : ℕ) (hsz : 1 ≤ size) :
    (create_app_icon c45 s45 size).px x y
      = compositePixel ((mainCanvas c45 s45 size).px x y)
          (if inDisc (center_x size - glass_radius size * 0.25)
                (center_y size - glass_radius size * 0.25)
                (glass_radius size * 0.15) x y
           then ⟨255, 255, 255, 60⟩ else ⟨0, 0, 0, 0⟩) := by
  show compositePixel ((mainCanvas c45 s45 size).px x y) ((shineLayer size).px x y) = _
  have hr : (0 : ℚ) < glass_radius size * 0.15 := by
    rw [glass_radius]
    have h1 : (1 : ℚ) ≤ (size : ℚ) := by exact_mod_cast hsz
    nlinarith
  have hs : (shineLayer size).px x y
      = (if inDisc (center_x size - glass_radius size * 0.25)
            (center_y size - glass_radius size * 0.25) (glass_radius size * 0.15) x y
         then (⟨255, 255, 255, 60⟩ : RGBA) else ⟨0, 0, 0, 0⟩) := by
    show (if inEllipse (center_x size - glass_radius size * 0.25 - glass_radius size * 0.15)
            (center_y size - glass_radius size * 0.25 - glass_radius size * 0.15)
            (center_x size - glass_radius size * 0.25 + glass_radius size * 0.15)
            (center_y size - glass_radius size * 0.25 + glass_radius size * 0.15) x y
          then (⟨255, 255, 255, 60⟩ : RGBA) else ⟨0, 0, 0, 0⟩) = _
    rw [inEllipse_eq_inDisc (center_x size - glass_radius size * 0.25)
      (center_y size - glass_radius size * 0.25) (glass_radius size * 0.15) hr x y]
  rw [hs]

/-- Witness for `c7_highlight_composite` at `size = 1`, pixel `(0, 0)`. -/
theorem c7_highlight_composite_witness :
    (create_app_icon 0.70710678 0.70710678 1).px 0 0
      = compositePixel ((mainCanvas 0.70710678 0.70710678 1).px 0 0)
          (if inDisc (center_x 1 - glass_radius 1 * 0.25)
                (center_y 1 - glass_radius 1 * 0.25)
                (glass_radius 1 * 0.15) 0 0
           then ⟨255, 255, 255, 60⟩ else ⟨0, 0, 0, 0⟩) :=
  c7_highlight_composite 0.70710678 0.70710678 1 0 0 (by decide)

/-- **C5.** The ring stage paints over the gradient two overlapping filled
discs centered at `(0.42 size, 0.42 size)`: an outer disc of radius
`glass_radius + ring_width/2` in solid white (alpha 255) and, over it, an
inner disc of radius `glass_radius - ring_width/2` in the color
`int(0.95 top + 0.05 bottom) = (215, 117, 85)` (alpha 255), the inner disc
taking precedence where both apply. -/
theorem c5_ring_discs (size x y : ℕ) (hy : y < size) (hsz : 1 ≤ size) :
    ((ringStage size).px x y
      = (if inDisc (center_x size) (center_y size)
              (glass_radius size - ring_width size / 2) x y
         then inner_color
         else if inDisc (center_x size) (center_y size)
              (glass_radius size + ring_width size / 2) x y
         then white
         else gradColor size y))
    ∧ inner_color = ⟨215, 117, 85, 255⟩ ∧ white = ⟨255, 255, 255, 255⟩ := by
  have hS : (1 : ℚ) ≤ (size : ℚ) := by exact_mod_cast hsz
  have hrin : (0 : ℚ) < glass_radius size - ring_width size / 2 := by
    rw [glass_radius, ring_width]
    nlinarith
  have hrout : (0 : ℚ) < glass_radius size + ring_width size / 2 := by
    rw [glass_radius, ring_width]
    nlinarith
  refine ⟨?_, inner_color_eq, rfl⟩
  show (if innerRegion size x y then inner_color
        else if outerRegion size x y then white
        else (gradientLoop size).px x y) = _
  rw [gradientLoop_px size x y hy]
  have hin : innerRegion size x y
      = inDisc (center_x size) (center_y size) (glass_radius size - ring_width size / 2) x y := by
    rw [innerRegion]
    have e1 : center_x size - glass_radius size + ring_width size / 2
        = center_x size - (glass_radius size - ring_width size / 2) := by ring
    have e2 : center_y size - glass_radius size + ring_width size / 2
        = center_y size - (glass_radius size - ring_width size / 2) := by ring
    have e3 : center_x size + glass_radius size - ring_width size / 2
        = center_x size + (glass_radius size - ring_width size / 2) := by ring
    have e4 : center_y size + glass_radius size - ring_width size / 2
        = center_y size + (glass_radius size - ring_width size / 2) := by ring
    rw [e1, e2, e3, e4,
      inEllipse_eq_inDisc (center_x size) (center_y size)
        (glass_radius size - ring_width size / 2) hrin x y]
  have hout : outerRegion size x y
      = inDisc (center_x size) (center_y size) (glass_radius size + ring_width size / 2) x y := by
    rw [outerRegion]
    have e1 : center_x size - glass_radius size - ring_width size / 2
        = center_x size - (glass_radius size + ring_width size / 2) := by ring
    have e2 : center_y size - glass_radius size - ring_width size / 2
        = center_y size - (glass_radius size + ring_width size / 2) := by ring
    have e3 : center_x size + glass_radius size + ring_width size / 2
        = center_x size + (glass_radius size + ring_width size / 2) := by ring
    have e4 : center_y size + glass_radius size + ring_width size / 2
        = center_y size + (glass_radius size + ring_width size / 2) := by ring
    rw [e1, e2, e3, e4,
      inEllipse_eq_inDisc (center_x size) (center_y size)
        (glass_radius size + ring_width size / 2) hrout x y]
  rw [hin, hout]

/-- Witness for `c5_ring_discs` at `size = 3`, pixel `(1, 1)`. -/
theorem c5_ring_discs_witness :
    ((ringStage 3).px 1 1
      = (if inDisc (center_x 3) (center_y 3) (glass_radius 3 - ring_width 3 / 2) 1 1
         then inner_color
         else if inDisc (center_x 3) (center_y 3) (glass_radius 3 + ring_width 3 / 2) 1 1
         then white
         else gradColor 3 1))
    ∧ inner_color = ⟨215, 117, 85, 255⟩ ∧ white = ⟨255, 255, 255, 255⟩ :=
  c5_ring_discs 3 1 1 (by decide) (by decide)

/-! ## Geometric exclusion lemmas for the handle and highlight -/

theorem shineRegion_coord_bounds (size x y : ℕ) (hS : (1 : ℚ) ≤ (size : ℚ))
    (h : shineRegion size x y = true) :
    (x : ℚ) ≤ 0.396 * (size : ℚ) ∧ (y : ℚ) ≤ 0.396 * (size : ℚ) := by
  simp only [shineRegion, inEllipse, center_x, center_y, glass_radius,
    decide_eq_true_eq] at h
  have hr2 : (0 : ℚ) < (0.036 * (size : ℚ)) ^ 2 := by nlinarith
  constructor
  · have hmul : (0.036 * (size : ℚ)) ^ 2 * (((x : ℚ) - 0.36 * (size : ℚ)) ^ 2)
        ≤ (0.036 * (size : ℚ)) ^ 2 * ((0.036 * (size : ℚ)) ^ 2) := by
      linarith [h, mul_nonneg (sq_nonneg (0.036 * (size : ℚ)))
        (sq_nonneg ((y : ℚ) - 0.36 * (size : ℚ)))]
    have h2 := le_of_mul_le_mul_left hmul hr2
    have h3 := rat_le_of_sq_le_sq ((x : ℚ) - 0.36 * (size : ℚ)) (0.036 * (size : ℚ))
      (by linarith) h2
    linarith
  · have hmul : (0.036 * (size : ℚ)) ^ 2 * (((y : ℚ) - 0.36 * (size : ℚ)) ^ 2)
        ≤ (0.036 * (size : ℚ)) ^ 2 * ((0.036 * (size : ℚ)) ^ 2) := by
      linarith [h, mul_nonneg (sq_nonneg (0.036 * (size : ℚ)))
        (sq_nonneg ((x : ℚ) - 0.36 * (size : ℚ)))]
    have h2 := le_of_mul_le_mul_left hmul hr2
    have h3 := rat_le_of_sq_le_sq ((y : ℚ) - 0.36 * (size : ℚ)) (0.036 * (size : ℚ))
      (by linarith) h2
    linarith

theorem capRegion_x_lb (c45 s45 : ℚ) (size x y : ℕ) (hS : (1 : ℚ) ≤ (size : ℚ))
    (hc : 0.7071067 ≤ c45) (h : capRegion c45 s45 size x y = true) :
    0.75 * (size : ℚ) ≤ (x : ℚ) := by
  simp only [capRegion, inEllipse, handle_end, handle_start, center_x, center_y,
    glass_radius, handle_width, handle_length, decide_eq_true_eq] at h
  have hr2 : (0 : ℚ) < (0.035 * (size : ℚ)) ^ 2 := by nlinarith
  have hmul : (0.035 * (size : ℚ)) ^ 2
        * (((x : ℚ) - ((size : ℚ) * 0.42 + (size : ℚ) * 0.24 * c45 + (size : ℚ) * 0.28 * c45)) ^ 2)
      ≤ (0.035 * (size : ℚ)) ^ 2 * ((0.035 * (size : ℚ)) ^ 2) := by
    linarith [h, mul_nonneg (sq_nonneg (0.035 * (size : ℚ)))
      (sq_nonneg ((y : ℚ) - ((size : ℚ) * 0.42 + (size : ℚ) * 0.24 * s45 + (size : ℚ) * 0.28 * s45)))]
  have h2 := le_of_mul_le_mul_left hmul hr2
  have h3 : ((size : ℚ) * 0.42 + (size : ℚ) * 0.24 * c45 + (size : ℚ) * 0.28 * c45) - (x : ℚ)
      ≤ 0.035 * (size : ℚ) := by
    apply rat_le_of_sq_le_sq _ _ (by linarith)
    linarith [h2]
  linarith [h3, mul_nonneg (show (0 : ℚ) ≤ (size : ℚ) by linarith)
    (show (0 : ℚ) ≤ c45 - 0.7071067 by linarith)]

theorem handle_dot_neg (c45 s45 : ℚ) (hc1 : 0.7071067 ≤ c45) (hs1 : 0.7071067 ≤ s45)
    (S X Y : ℚ) (hS : 1 ≤ S) (hX : X ≤ 0.42 * S) (hY : Y ≤ 0.42 * S) :
    (X - (S * 0.42 + S * 0.24 * c45)) * (S * 0.28 * c45)
      + (Y - (S * 0.42 + S * 0.24 * s45)) * (S * 0.28 * s45) < 0 := by
  have hcpos : (0 : ℚ) < c45 := by linarith
  have hspos : (0 : ℚ) < s45 := by linarith
  have hXA : X - (S * 0.42 + S * 0.24 * c45) ≤ -(0.16 * S) := by
    linarith [mul_nonneg (show (0 : ℚ) ≤ S by linarith)
      (show (0 : ℚ) ≤ c45 - 0.7071067 by linarith)]
  have hYA : Y - (S * 0.42 + S * 0.24 * s45) ≤ -(0.16 * S) := by
    linarith [mul_nonneg (show (0 : ℚ) ≤ S by linarith)
      (show (0 : ℚ) ≤ s45 - 0.7071067 by linarith)]
  have h1 : (X - (S * 0.42 + S * 0.24 * c45)) * (S * 0.28 * c45)
      ≤ -(0.16 * S) * (S * 0.28 * c45) :=
    mul_le_mul_of_nonneg_right hXA (by positivity)
  have h2 : (Y - (S * 0.42 + S * 0.24 * s45)) * (S * 0.28 * s45)
      ≤ -(0.16 * S) * (S * 0.28 * s45) :=
    mul_le_mul_of_nonneg_right hYA (by positivity)
  have h3 : -(0.16 * S) * (S * 0.28 * c45) ≤ -(0.16 * S) * (S * 0.28 * 0.7071067) := by
    apply mul_le_mul_of_nonpos_left ?_ (by linarith)
    linarith [mul_nonneg (show (0 : ℚ) ≤ S by linarith)
      (show (0 : ℚ) ≤ c45 - 0.7071067 by linarith)]
  have h4 : -(0.16 * S) * (S * 0.28 * s45) ≤ -(0.16 * S) * (S * 0.28 * 0.7071067) := by
    apply mul_le_mul_of_nonpos_left ?_ (by linarith)
    linarith [mul_nonneg (show (0 : ℚ) ≤ S by linarith)
      (show (0 : ℚ) ≤ s45 - 0.7071067 by linarith)]
  linarith [h1, h2, h3, h4, mul_le_mul hS hS (by norm_num) (by linarith)]

theorem handleRegion_shine_disjoint (c45 s45 : ℚ) (hc1 : 0.7071067 ≤ c45)
    (hs1 : 0.7071067 ≤ s45) (size x y : ℕ) (hS : (1 : ℚ) ≤ (size : ℚ))
    (hl : handleRegion c45 s45 size x y = true) :
    shineRegion size x y = false := by
  cases hsh : shineRegion size x y with
  | false => rfl
  | true =>
    exfalso
    obtain ⟨hx396, hy396⟩ := shineRegion_coord_bounds size x y hS hsh
    simp only [handleRegion, inThickLine, handle_start, handle_end, center_x, center_y,
      glass_radius, handle_length, decide_eq_true_eq] at hl
    obtain ⟨hdot, -⟩ := hl
    have hneg := handle_dot_neg c45 s45 hc1 hs1 (size : ℚ) (x : ℚ) (y : ℚ) hS
      (by linarith) (by linarith)
    linarith [hdot, hneg]

/-- **C2 (amended).** The handle segment is anchored at
`center + glass_radius * (cos 45°, sin 45°)` — a point at (approximately)
distance `glass_radius` from the center, i.e. on the ring band's centerline,
which lies strictly inside the outer circle of radius
`glass_radius + ring_width/2`, not on it — and extends along the same 45°
direction for `handle_length`, with a filled cap circle of radius
`handle_width/2` centered at its far end.  Every canvas pixel covered by the
thick segment or by the cap circle is white in the final image. -/
theorem c2_handle_geometry (c45 s45 : ℚ) (hd : dirOK c45 s45) (size x y : ℕ)
    (_hx : x < size) (hy : y < size)
    (hreg : handleRegion c45 s45 size x y = true ∨ capRegion c45 s45 size x y = true) :
    (create_app_icon c45 s45 size).px x y = white
    ∧ handle_start c45 s45 size
        = (center_x size + glass_radius size * c45, center_y size + glass_radius size * s45)
    ∧ handle_end c45 s45 size
        = ((handle_start c45 s45 size).1 + handle_length size * c45,
           (handle_start c45 s45 size).2 + handle_length size * s45)
    ∧ ((handle_start c45 s45 size).1 - center_x size) ^ 2
        + ((handle_start c45 s45 size).2 - center_y size) ^ 2
        < (glass_radius size + ring_width size / 2) ^ 2 := by
  have hS : (1 : ℚ) ≤ (size : ℚ) := by exact_mod_cast (by omega : 1 ≤ size)
  obtain ⟨hc1, hc2, hs1, hs2⟩ := hd
  refine ⟨?_, rfl, rfl, ?_⟩
  · rw [create_app_icon_px c45 s45 size x y hy]
    have hshine : shineRegion size x y = false := by
      cases hreg with
      | inl hl => exact handleRegion_shine_disjoint c45 s45 hc1 hs1 size x y hS hl
      | inr hcap =>
        cases hsh : shineRegion size x y with
        | false => rfl
        | true =>
          exfalso
          have hxub := (shineRegion_coord_bounds size x y hS hsh).1
          have hxlb := capRegion_x_lb c45 s45 size x y hS hc1 hcap
          linarith
    have hdst : (if capRegion c45 s45 size x y then white
        else if handleRegion c45 s45 size x y then white
        else if innerRegion size x y then inner_color
        else if outerRegion size x y then white
        else gradColor size y) = white := by
      cases hcapv : capRegion c45 s45 size x y with
      | true => simp
      | false =>
        cases hreg with
        | inl hl => simp [hl]
        | inr hcap => rw [hcapv] at hcap; exact absurd hcap (by simp)
    rw [hdst, hshine]
    show compositePixel white ⟨0, 0, 0, 0⟩ = white
    exact compositePixel_transparent white
  · show (center_x size + glass_radius size * c45 - center_x size) ^ 2
        + (center_y size + glass_radius size * s45 - center_y size) ^ 2
        < (glass_radius size + ring_width size / 2) ^ 2
    rw [center_x, center_y, glass_radius, ring_width]
    have hc0 : (0 : ℚ) ≤ c45 := by linarith
    have hs0 : (0 : ℚ) ≤ s45 := by linarith
    have hcsq : c45 * c45 ≤ 0.7071068 * 0.7071068 := mul_self_le_mul_self hc0 hc2
    have hssq : s45 * s45 ≤ 0.7071068 * 0.7071068 := mul_self_le_mul_self hs0 hs2
    nlinarith [hcsq, hssq, mul_le_mul hS hS (by norm_num) (by linarith), hS]

/-- Witness for `c2_handle_geometry` at `size = 1024`, pixel `(705, 705)` (on
the thick handle segment), with direction values `0.70710678`. -/
theorem c2_handle_geometry_witness :
    (create_app_icon 0.70710678 0.70710678 1024).px 705 705 = white
    ∧ handle_start 0.70710678 0.70710678 1024
        = (center_x 1024 + glass_radius 1024 * 0.70710678,
           center_y 1024 + glass_radius 1024 * 0.70710678)
    ∧ handle_end 0.70710678 0.70710678 1024
        = ((handle_start 0.70710678 0.70710678 1024).1 + handle_length 1024 * 0.70710678,
           (handle_start 0.70710678 0.70710678 1024).2 + handle_length 1024 * 0.70710678)
    ∧ ((handle_start 0.70710678 0.70710678 1024).1 - center_x 1024) ^ 2
        + ((handle_start 0.70710678 0.70710678 1024).2 - center_y 1024) ^ 2
        < (glass_radius 1024 + ring_width 1024 / 2) ^ 2 := by
  have hd : dirOK 0.70710678 0.70710678 := by
    rw [dirOK]
    norm_num
  have hreg : handleRegion 0.70710678 0.70710678 1024 705 705 = true := by
    simp only [handleRegion, inThickLine, handle_start, handle_end, center_x, center_y,
      glass_radius, handle_length, decide_eq_true_eq]
    push_cast
    refine ⟨by norm_num, by norm_num, ?_⟩
    have hz : ((705 : ℚ) - ((1024 : ℚ) * 0.42 + (1024 : ℚ) * 0.24 * 0.70710678))
          * ((1024 : ℚ) * 0.42 + (1024 : ℚ) * 0.24 * 0.70710678 + (1024 : ℚ) * 0.28 * 0.70710678
             - ((1024 : ℚ) * 0.42 + (1024 : ℚ) * 0.24 * 0.70710678))
        - ((705 : ℚ) - ((1024 : ℚ) * 0.42 + (1024 : ℚ) * 0.24 * 0.70710678))
          * ((1024 : ℚ) * 0.42 + (1024 : ℚ) * 0.24 * 0.70710678 + (1024 : ℚ) * 0.28 * 0.70710678
             - ((1024 : ℚ) * 0.42 + (1024 : ℚ) * 0.24 * 0.70710678)) = 0 := by
      ring
    rw [hz]
    positivity
  exact c2_handle_geometry 0.70710678 0.70710678 hd 1024 705 705 (by decide) (by decide)
    (Or.inl hreg)

/-- **C2 counterexample.** At `size = 1024` with the actual direction value
`0.70710678`, the handle's start point as computed by the code does not lie
on the ring's outer circle of radius `glass_radius + ring_width/2`: its
squared distance from the glass center is not `(glass_radius + ring_width/2)^2`
(it is about `60398`, versus `273.92^2 ≈ 75032`; the anchor sits on the ring's
centerline circle of radius `glass_radius` instead). -/
theorem c2_handle_anchor_cex :
    ((handle_start 0.70710678 0.70710678 1024).1 - center_x 1024) ^ 2
      + ((handle_start 0.70710678 0.70710678 1024).2 - center_y 1024) ^ 2
      ≠ (glass_radius 1024 + ring_width 1024 / 2) ^ 2 := by
  simp only [handle_start, center_x, center_y, glass_radius, ring_width]
  norm_num

/-! ## The glass-center pixel -/

theorem glassCenterPx_bounds (size : ℕ) :
    ((glassCenterPx size : ℕ) : ℚ) ≤ (size : ℚ) * 0.42
    ∧ (size : ℚ) * 0.42 - 1 < ((glassCenterPx size : ℕ) : ℚ) := by
  rw [glassCenterPx, pyIntNat, truncQ, center_x]
  have h0 : (0 : ℚ) ≤ (size : ℚ) * 0.42 := by positivity
  rw [if_pos h0]
  have h2 : (⌊(size : ℚ) * 0.42⌋.toNat : ℤ) = ⌊(size : ℚ) * 0.42⌋ :=
    Int.toNat_of_nonneg (Int.floor_nonneg.mpr h0)
  have h2Q : ((⌊(size : ℚ) * 0.42⌋.toNat : ℕ) : ℚ) = ((⌊(size : ℚ) * 0.42⌋ : ℤ) : ℚ) := by
    exact_mod_cast congrArg (fun z : ℤ => (z : ℚ)) h2
  constructor
  · rw [h2Q]
    exact Int.floor_le _
  · rw [h2Q]
    have := Int.lt_floor_add_one ((size : ℚ) * 0.42)
    linarith

theorem glassCenterPx_lt (size : ℕ) (hs : 1 ≤ size) : glassCenterPx size < size := by
  by_contra h
  push_neg at h
  have h1 := (glassCenterPx_bounds size).1
  have h2 : ((size : ℕ) : ℚ) ≤ ((glassCenterPx size : ℕ) : ℚ) := by exact_mod_cast h
  have hS : (1 : ℚ) ≤ (size : ℚ) := by exact_mod_cast hs
  linarith

theorem center_innerRegion (size : ℕ) (hs : 29 ≤ size) :
    innerRegion size (glassCenterPx size) (glassCenterPx size) = true := by
  obtain ⟨hle, hgt⟩ := glassCenterPx_bounds size
  have hS : (29 : ℚ) ≤ (size : ℚ) := by exact_mod_cast hs
  simp only [innerRegion, inEllipse, center_x, center_y, glass_radius, ring_width,
    decide_eq_true_eq]
  have hD2 : (((glassCenterPx size : ℕ) : ℚ) - (size : ℚ) * 0.42) ^ 2 ≤ 1 := by
    nlinarith [hle, hgt]
  nlinarith [hD2, hS, mul_nonneg (sq_nonneg (0.2125 * (size : ℚ)))
    (show (0 : ℚ) ≤ 1 - (((glassCenterPx size : ℕ) : ℚ) - (size : ℚ) * 0.42) ^ 2 by linarith),
    mul_le_mul hS hS (by norm_num) (by linarith)]

theorem center_not_shine (size : ℕ) (hs : 29 ≤ size) :
    shineRegion size (glassCenterPx size) (glassCenterPx size) = false := by
  obtain ⟨hle, hgt⟩ := glassCenterPx_bounds size
  have hS : (29 : ℚ) ≤ (size : ℚ) := by exact_mod_cast hs
  cases hsh : shineRegion size (glassCenterPx size) (glassCenterPx size) with
  | false => rfl
  | true =>
    exfalso
    simp only [shineRegion, inEllipse, center_x, center_y, glass_radius,
      decide_eq_true_eq] at hsh
    have hKpos : 0.06 * (size : ℚ) - 1 < ((glassCenterPx size : ℕ) : ℚ) - 0.36 * (size : ℚ) := by
      linarith
    have h74 : (0.74 : ℚ) ≤ 0.06 * (size : ℚ) - 1 := by linarith
    have hsq : (0.06 * (size : ℚ) - 1) ^ 2
        < (((glassCenterPx size : ℕ) : ℚ) - 0.36 * (size : ℚ)) ^ 2 := by
      nlinarith [hKpos, h74]
    have hkey : (0.036 * (size : ℚ)) ^ 2 < 2 * (0.06 * (size : ℚ) - 1) ^ 2 := by
      nlinarith [hS, sq_nonneg ((size : ℚ) - 29)]
    have hr2 : (0 : ℚ) < (0.036 * (size : ℚ)) ^ 2 := by nlinarith
    linarith [hsh, mul_lt_mul_of_pos_left hsq hr2, mul_lt_mul_of_pos_left hkey hr2]

theorem center_not_handle (c45 s45 : ℚ) (hc1 : 0.7071067 ≤ c45) (hs1 : 0.7071067 ≤ s45)
    (size : ℕ) (hs : 1 ≤ size) :
    handleRegion c45 s45 size (glassCenterPx size) (glassCenterPx size) = false := by
  cases hh : handleRegion c45 s45 size (glassCenterPx size) (glassCenterPx size) with
  | false => rfl
  | true =>
    exfalso
    obtain ⟨hle, -⟩ := glassCenterPx_bounds size
    have hS : (1 : ℚ) ≤ (size : ℚ) := by exact_mod_cast hs
    simp only [handleRegion, inThickLine, handle_start, handle_end, center_x, center_y,
      glass_radius, handle_length, decide_eq_true_eq] at hh
    obtain ⟨hdot, -⟩ := hh
    have hneg := handle_dot_neg c45 s45 hc1 hs1 (size : ℚ)
      ((glassCenterPx size : ℕ) : ℚ) ((glassCenterPx size : ℕ) : ℚ) hS
      (by linarith) (by linarith)
    linarith [hdot, hneg]

theorem center_not_cap (c45 s45 : ℚ) (hc1 : 0.7071067 ≤ c45) (size : ℕ) (hs : 1 ≤ size) :
    capRegion c45 s45 size (glassCenterPx size) (glassCenterPx size) = false := by
  cases hcap : capRegion c45 s45 size (glassCenterPx size) (glassCenterPx size) with
  | false => rfl
  | true =>
    exfalso
    have hS : (1 : ℚ) ≤ (size : ℚ) := by exact_mod_cast hs
    have hlb := capRegion_x_lb c45 s45 size (glassCenterPx size) (glassCenterPx size) hS hc1 hcap
    have hub := (glassCenterPx_bounds size).1
    linarith

/-- **C6 (amended).** For every `size ≥ 29` (and direction values in the
interval actually taken by the float cosine/sine of 45°), the pixel at the
computed glass center `(int(center_x), int(center_y))` has the inner-disc
color and is not pure white; in particular for `size = 1024` the glass-center
pixel is `(430, 430)`, the pixel `(430, 184)` at the top of the ring is white
(on the ring band), and the pixel `(430, 430)` is the inner color.  (For
small sizes the claim fails: the glass-center pixel can fall inside the
highlight ellipse and be blended away from the inner color.) -/
theorem c6_center_pixel (c45 s45 : ℚ) (hd : dirOK c45 s45) (n : ℕ) (hn : 29 ≤ n) :
    ((create_app_icon c45 s45 n).px (glassCenterPx n) (glassCenterPx n) = inner_color
      ∧ inner_color ≠ white)
    ∧ glassCenterPx 1024 = 430
    ∧ (create_app_icon c45 s45 1024).px 430 184 = white
    ∧ (create_app_icon c45 s45 1024).px 430 430 = inner_color := by
  obtain ⟨hc1, hc2, hs1, hs2⟩ := hd
  have h1n : 1 ≤ n := by omega
  refine ⟨⟨?_, ?_⟩, ?_, ?_, ?_⟩
  · rw [create_app_icon_px c45 s45 n (glassCenterPx n) (glassCenterPx n)
      (glassCenterPx_lt n h1n)]
    rw [center_not_cap c45 s45 hc1 n h1n, center_not_handle c45 s45 hc1 hs1 n h1n,
      center_innerRegion n hn, center_not_shine n hn]
    show compositePixel inner_color ⟨0, 0, 0, 0⟩ = inner_color
    exact compositePixel_transparent inner_color
  · rw [inner_color_eq]
    decide
  · rw [glassCenterPx, center_x]
    exact pyIntNat_eq _ 430 (by norm_num) (by norm_num)
  · have hcap : capRegion c45 s45 1024 430 184 = false := by
      cases hh : capRegion c45 s45 1024 430 184 with
      | false => rfl
      | true =>
        exfalso
        have hlb := capRegion_x_lb c45 s45 1024 430 184 (by norm_num) hc1 hh
        push_cast at hlb
        linarith
    have hhan : handleRegion c45 s45 1024 430 184 = false := by
      cases hh : handleRegion c45 s45 1024 430 184 with
      | false => rfl
      | true =>
        exfalso
        simp only [handleRegion, inThickLine, handle_start, handle_end, center_x, center_y,
          glass_radius, handle_length, decide_eq_true_eq] at hh
        obtain ⟨hdot, -⟩ := hh
        push_cast at hdot
        have hneg := handle_dot_neg c45 s45 hc1 hs1 1024 430 184 (by norm_num) (by norm_num)
          (by norm_num)
        linarith [hdot, hneg]
    have hinner : innerRegion 1024 430 184 = false := by
      simp only [innerRegion, inEllipse, center_x, center_y, glass_radius, ring_width,
        decide_eq_false_iff_not]
      push_cast
      norm_num
    have houter : outerRegion 1024 430 184 = true := by
      simp only [outerRegion, inEllipse, center_x, center_y, glass_radius, ring_width,
        decide_eq_true_eq]
      push_cast
      norm_num
    have hshine : shineRegion 1024 430 184 = false := by
      simp only [shineRegion, inEllipse, center_x, center_y, glass_radius,
        decide_eq_false_iff_not]
      push_cast
      norm_num
    rw [create_app_icon_px c45 s45 1024 430 184 (by omega)]
    rw [hcap, hhan, hinner, houter, hshine]
    show compositePixel white ⟨0, 0, 0, 0⟩ = white
    exact compositePixel_transparent white
  · have hcap : capRegion c45 s45 1024 430 430 = false := by
      cases hh : capRegion c45 s45 1024 430 430 with
      | false => rfl
      | true =>
        exfalso
        have hlb := capRegion_x_lb c45 s45 1024 430 430 (by norm_num) hc1 hh
        push_cast at hlb
        linarith
    have hhan : handleRegion c45 s45 1024 430 430 = false := by
      cases hh : handleRegion c45 s45 1024 430 430 with
      | false => rfl
      | true =>
        exfalso
        simp only [handleRegion, inThickLine, handle_start, handle_end, center_x, center_y,
          glass_radius, handle_length, decide_eq_true_eq] at hh
        obtain ⟨hdot, -⟩ := hh
        push_cast at hdot
        have hneg := handle_dot_neg c45 s45 hc1 hs1 1024 430 430 (by norm_num) (by norm_num)
          (by norm_num)
        linarith [hdot, hneg]
    have hinner : innerRegion 1024 430 430 = true := by
      simp only [innerRegion, inEllipse, center_x, center_y, glass_radius, ring_width,
        decide_eq_true_eq]
      push_cast
      norm_num
    have hshine : shineRegion 1024 430 430 = false := by
      simp only [shineRegion, inEllipse, center_x, center_y, glass_radius,
        decide_eq_false_iff_not]
      push_cast
      norm_num
    rw [create_app_icon_px c45 s45 1024 430 430 (by omega)]
    rw [hcap, hhan, hinner, hshine]
    show compositePixel inner_color ⟨0, 0, 0, 0⟩ = inner_color
    exact compositePixel_transparent inner_color

/-- Witness for `c6_center_pixel` at direction values `0.70710678`, `n = 29`. -/
theorem c6_center_pixel_witness :
    dirOK 0.70710678 0.70710678
    ∧ (((create_app_icon 0.70710678 0.70710678 29).px (glassCenterPx 29) (glassCenterPx 29)
          = inner_color ∧ inner_color ≠ white)
       ∧ glassCenterPx 1024 = 430
       ∧ (create_app_icon 0.70710678 0.70710678 1024).px 430 184 = white
       ∧ (create_app_icon 0.70710678 0.70710678 1024).px 430 430 = inner_color) := by
  have hd : dirOK 0.70710678 0.70710678 := by
    rw [dirOK]
    norm_num
  exact ⟨hd, c6_center_pixel 0.70710678 0.70710678 hd 29 (by decide)⟩

/-- **C6 counterexample.** At `size = 14` (where `glass_radius > ring_width/2`
holds, as the claim requires) the glass-center pixel is `(5, 5)`, which falls
inside the highlight ellipse; after compositing, its color is **not** the
inner-disc color, contradicting the claim's general statement. -/
theorem c6_center_pixel_cex :
    ring_width 14 / 2 < glass_radius 14
    ∧ (create_app_icon 0.70710678 0.70710678 14).px (glassCenterPx 14) (glassCenterPx 14)
        ≠ inner_color := by
  have hk : glassCenterPx 14 = 5 := by
    rw [glassCenterPx, center_x]
    exact pyIntNat_eq _ 5 (by norm_num) (by norm_num)
  constructor
  · rw [glass_radius, ring_width]
    norm_num
  · rw [hk]
    have hcap : capRegion 0.70710678 0.70710678 14 5 5 = false := by
      cases hh : capRegion 0.70710678 0.70710678 14 5 5 with
      | false => rfl
      | true =>
        exfalso
        have hlb := capRegion_x_lb 0.70710678 0.70710678 14 5 5 (by norm_num) (by norm_num) hh
        push_cast at hlb
        linarith
    have hhan : handleRegion 0.70710678 0.70710678 14 5 5 = false := by
      cases hh : handleRegion 0.70710678 0.70710678 14 5 5 with
      | false => rfl
      | true =>
        exfalso
        simp only [handleRegion, inThickLine, handle_start, handle_end, center_x, center_y,
          glass_radius, handle_length, decide_eq_true_eq] at hh
        obtain ⟨hdot, -⟩ := hh
        push_cast at hdot
        have hneg := handle_dot_neg 0.70710678 0.70710678 (by norm_num) (by norm_num) 14 5 5
          (by norm_num) (by norm_num) (by norm_num)
        linarith [hdot, hneg]
    have hinner : innerRegion 14 5 5 = true := by
      simp only [innerRegion, inEllipse, center_x, center_y, glass_radius, ring_width,
        decide_eq_true_eq]
      push_cast
      norm_num
    have hshine : shineRegion 14 5 5 = true := by
      simp only [shineRegion, inEllipse, center_x, center_y, glass_radius,
        decide_eq_true_eq]
      push_cast
      norm_num
    rw [create_app_icon_px 0.70710678 0.70710678 14 5 5 (by omega)]
    rw [hcap, hhan, hinner, hshine]
    rw [inner_color_eq]
    decide
